import Mathlib

set_option linter.unusedVariables false

namespace PyExec

/- Shallow embedding of the sandboxed execution service in src/main.rs.
   Byte strings are lists of natural numbers below 256, process exit codes
   are optional integers (the value of ExitStatus.code in the source, none
   when the child was terminated by a signal), and the effectful steps of
   the tokio runtime are supplied through explicit environment records so
   that every return path of the source functions is a branch of a pure
   Lean function. -/

/-- Byte strings, as lists of natural numbers. -/
abbrev Bytes := List Nat

/-- Captured output of a finished child process, from std::process::Output.
The status field models the value of ExitStatus.code(): some code when the
process exited normally, none when the exit code cannot be read. -/
structure Output where
  status : Option Int
  stdout : Bytes
  stderr : Bytes
  deriving DecidableEq

/-- Error taxonomy of the execution engine, from the ExecError enum in
src/main.rs lines 62-67. Error payloads carry the rendered Display text of
the underlying Rust error value. -/
inductive ExecError where
  | IoError (e : String)
  | Utf8Error (e : String)
  | Timeout
  deriving DecidableEq

/-- Result type of one execution, from the ExecResult alias at line 81. -/
abbrev ExecResult := Except ExecError Output

/-- Continuation byte test for UTF-8 decoding: bytes 0x80 to 0xBF. -/
def isCont (b : Nat) : Bool := Nat.ble 0x80 b && Nat.ble b 0xBF

/-- Admissible first continuation byte of a three byte sequence, following
the UTF-8 validation tables used by the Rust standard library. -/
def utf8Cont1of3 (b b1 : Nat) : Bool :=
  if b = 0xE0 then Nat.ble 0xA0 b1 && Nat.ble b1 0xBF
  else if b = 0xED then Nat.ble 0x80 b1 && Nat.ble b1 0x9F
  else isCont b1

/-- Admissible first continuation byte of a four byte sequence, following
the UTF-8 validation tables used by the Rust standard library. -/
def utf8Cont1of4 (b b1 : Nat) : Bool :=
  if b = 0xF0 then Nat.ble 0x90 b1 && Nat.ble b1 0xBF
  else if b = 0xF4 then Nat.ble 0x80 b1 && Nat.ble b1 0x8F
  else isCont b1

/-- Decoding of one UTF-8 scalar starting at byte b with following bytes
bs. Returns the decoded character (or none on an invalid or incomplete
sequence) together with the number of bytes of bs consumed in addition to
b. The consumed counts on failure follow the maximal subpart convention of
the Rust standard library, which from_utf8_lossy uses to decide how many
bytes a single replacement character stands for. -/
def decodeOne (b : Nat) (bs : Bytes) : Option Char × Nat :=
  if Nat.blt b 0x80 then (some (Char.ofNat b), 0)
  else if Nat.ble 0xC2 b && Nat.ble b 0xDF then
    match bs with
    | [] => (none, 0)
    | b1 :: _ =>
      if isCont b1 then (some (Char.ofNat ((b - 0xC0) * 0x40 + (b1 - 0x80))), 1)
      else (none, 0)
  else if Nat.ble 0xE0 b && Nat.ble b 0xEF then
    match bs with
    | [] => (none, 0)
    | b1 :: rest =>
      if utf8Cont1of3 b b1 then
        match rest with
        | [] => (none, 1)
        | b2 :: _ =>
          if isCont b2 then
            (some (Char.ofNat (((b - 0xE0) * 0x40 + (b1 - 0x80)) * 0x40 + (b2 - 0x80))), 2)
          else (none, 1)
      else (none, 0)
  else if Nat.ble 0xF0 b && Nat.ble b 0xF4 then
    match bs with
    | [] => (none, 0)
    | b1 :: rest =>
      if utf8Cont1of4 b b1 then
        match rest with
        | [] => (none, 1)
        | b2 :: rest2 =>
          if isCont b2 then
            match rest2 with
            | [] => (none, 2)
            | b3 :: _ =>
              if isCont b3 then
                (some (Char.ofNat
                  ((((b - 0xF0) * 0x40 + (b1 - 0x80)) * 0x40 + (b2 - 0x80)) * 0x40 + (b3 - 0x80))), 3)
              else (none, 2)
          else (none, 1)
      else (none, 0)
  else (none, 0)

/-- Fuel driven lossy UTF-8 decoding loop. Each step consumes at least the
leading byte, so any fuel of at least the length of the input reaches the
end of the input. Invalid or incomplete sequences contribute one U+FFFD
replacement character, as in String::from_utf8_lossy. -/
def utf8LossyFuel : Nat → Bytes → List Char
  | _, [] => []
  | 0, _ :: _ => []
  | f + 1, b :: bs =>
    match decodeOne b bs with
    | (some c, k) => c :: utf8LossyFuel f (bs.drop k)
    | (none, k) => '�' :: utf8LossyFuel f (bs.drop k)

/-- Model of String::from_utf8_lossy applied to a byte string. -/
def from_utf8_lossy (l : Bytes) : String := String.mk (utf8LossyFuel l.length l)

/-- Fuel driven strict UTF-8 decoding loop: fails on the first invalid or
incomplete sequence, as in String::from_utf8. -/
def utf8StrictFuel : Nat → Bytes → Option (List Char)
  | _, [] => some []
  | 0, _ :: _ => none
  | f + 1, b :: bs =>
    match decodeOne b bs with
    | (some c, k) => (utf8StrictFuel f (bs.drop k)).map (fun cs => c :: cs)
    | (none, _) => none

/-- Model of String::from_utf8 applied to a byte string. -/
def from_utf8_strict (l : Bytes) : Option String := (utf8StrictFuel l.length l).map String.mk

/-- Result encoder from the source function out_to_res at lines 152-162:
collapses an execution outcome into the two part textual protocol. The
condition on the first branch models o.status.code().unwrap_or(-1) == 0. -/
def out_to_res : ExecResult → String
  | .ok o =>
    if o.status.getD (-1) = 0 then "0\n" ++ from_utf8_lossy o.stdout
    else "1\n" ++ from_utf8_lossy o.stderr
  | .error .Timeout => "1\nTimeout"
  | .error (.IoError e) => "1\n" ++ e
  | .error (.Utf8Error e) => "1\n" ++ e

/-- Fuel driven decimal digit rendering of a natural number, most
significant digit first. Fuel n + 1 suffices for the number n. -/
def natDigitsFuel : Nat → Nat → List Char
  | 0, _ => []
  | f + 1, n =>
    if n < 10 then [Char.ofNat (48 + n)]
    else natDigitsFuel f (n / 10) ++ [Char.ofNat (48 + n % 10)]

/-- Decimal rendering of a natural number, modelling the Display
implementation used by format! and to_string in the source. -/
def natToString (n : Nat) : String := String.mk (natDigitsFuel (n + 1) n)

/-- Host parameters read once by the lazy statics at lines 37-48: total
system memory and the available parallelism. -/
structure Host where
  total_mem : Nat
  cpus : Nat

/-- Memory ceiling from the MEMORY_LIMIT lazy static at lines 43-47: total
system memory divided by the cpu count. The lazy static is initialized at
most once and never written again, which the embedding renders as a pure
function of the host parameters. -/
def MEMORY_LIMIT (h : Host) : Nat := h.total_mem / h.cpus

/-- System calls attempted by the child setup hook. -/
inductive SysCall where
  | setgid (g : Nat)
  | setuid (u : Nat)
  | setrlimit (soft hard : Nat)
  deriving DecidableEq

/-- Outcomes of the three system calls of the child setup hook, suppliedby
the operating system. Error payloads carry the rendered errno text. -/
structure PreExecEnv where
  setgidR : Except String Unit
  setuidR : Except String Unit
  setrlimitR : Except String Unit

/-- Child setup hook from the pre_exec closure at lines 96-111: change the
group identity to gid 1000, then the user identity to uid 1000, then
install lim as both the soft and the hard RLIMIT_AS value; each step
propagates its error with the question mark operator, so a failing step
stops the sequence. The second component records the system calls
attempted, in order. -/
def pre_exec (lim : Nat) (env : PreExecEnv) : Except String Unit × List SysCall :=
  match env.setgidR with
  | .error e => (.error e, [SysCall.setgid 1000])
  | .ok _ =>
    match env.setuidR with
    | .error e => (.error e, [SysCall.setgid 1000, SysCall.setuid 1000])
    | .ok _ =>
      match env.setrlimitR with
      | .error e =>
        (.error e, [SysCall.setgid 1000, SysCall.setuid 1000, SysCall.setrlimit lim lim])
      | .ok _ =>
        (.ok (), [SysCall.setgid 1000, SysCall.setuid 1000, SysCall.setrlimit lim lim])

/-- Modelled from the spec: the standard library runs the child setup hook
between the fork and the exec of the child, and a hook that returns an
error aborts the child before the target program image loads, so the
caller supplied program executes exactly when the hook returns Ok. The
abort behavior itself lives in the Rust standard library, outside this
repository. -/
def child_executes (lim : Nat) (env : PreExecEnv) : Bool :=
  match (pre_exec lim env).1 with
  | .ok _ => true
  | .error _ => false

/-- Resolution of the race between child exit and the timeout at line 118:
either the wait resolved first with an exit status, or the wait resolved
first with an operating system error, or the timeout elapsed first. -/
inductive WaitOutcome where
  | exited (code : Option Int)
  | waitErr (e : String)
  | elapsed

/-- Environment of one call to run_program_with_timeout: the outcome of
every effectful step the tokio runtime performs for it. The pipe fields
model Child.stdout.take() and Child.stderr.take() together with the result
of draining the taken pipe. -/
structure RunEnv where
  preExec : PreExecEnv
  spawnOk : Except String Unit
  stdinWriteR : Except String Unit
  race : WaitOutcome
  stdoutPipe : Option (Except String Bytes)
  stderrPipe : Option (Except String Bytes)

/-- Display text of std::io::Error::from_raw_os_error(0), used at lines
122 and 126 when a pipe handle is missing. -/
def os_error_zero : String := "Success (os error 0)"

/-- Observable account of one call to run_program_with_timeout: its
returned value, whether a child was spawned (spawn returned Ok), whether
kill was called on it, whether its wait returned an exit status, and the
system calls performed by the child setup hook. -/
structure RunResult where
  result : ExecResult
  spawned : Bool
  killed : Bool
  reaped : Bool
  sys : List SysCall

/-- Reaping state contributed by the race alone: the child was waited to
completion exactly when the wait resolved first with an exit status. -/
def raceReaped : WaitOutcome → Bool
  | .exited _ => true
  | _ => false

/-- Execution engine from run_program_with_timeout at lines 83-150. The
branches mirror the source exactly: spawn propagates a child setup or exec
failure; a non empty stdin triggers a write whose failure returns early
with the question mark operator (killing nothing); the race result is then
inspected only after both pipe handles are taken, each with an early
return on a missing handle; a successful wait drains both pipes, each read
failure returning early; a wait error or an elapsed timeout kills the
child, discarding the result of the kill, and returns the corresponding
error. -/
def run_program_with_timeout (h : Host) (stdin_data : Bytes) (env : RunEnv) : RunResult :=
  let pre := pre_exec (MEMORY_LIMIT h) env.preExec
  match pre.1 with
  | .error e => ⟨.error (.IoError e), false, false, false, pre.2⟩
  | .ok _ =>
    match env.spawnOk with
    | .error e => ⟨.error (.IoError e), false, false, false, pre.2⟩
    | .ok _ =>
      match (if stdin_data.isEmpty then Except.ok () else env.stdinWriteR) with
      | .error e => ⟨.error (.IoError e), true, false, false, pre.2⟩
      | .ok _ =>
        match env.stdoutPipe with
        | none => ⟨.error (.IoError os_error_zero), true, false, raceReaped env.race, pre.2⟩
        | some stdoutRead =>
          match env.stderrPipe with
          | none => ⟨.error (.IoError os_error_zero), true, false, raceReaped env.race, pre.2⟩
          | some stderrRead =>
            match env.race with
            | .exited code =>
              match stdoutRead with
              | .error e => ⟨.error (.IoError e), true, false, true, pre.2⟩
              | .ok outBuf =>
                match stderrRead with
                | .error e => ⟨.error (.IoError e), true, false, true, pre.2⟩
                | .ok errBuf => ⟨.ok ⟨code, outBuf, errBuf⟩, true, false, true, pre.2⟩
            | .waitErr e => ⟨.error (.IoError e), true, true, false, pre.2⟩
            | .elapsed => ⟨.error .Timeout, true, true, false, pre.2⟩

/-- Atomic counter step from FILE_IDX.fetch_add(1, SeqCst) at line 51: the
call returns the current value and stores the incremented value, which for
the AtomicUsize of the source wraps around at 2 ^ 64 on a 64 bit machine.
The fetch and the increment are one atomic step, so any interleaving of
concurrent calls is a serialization of such steps. -/
def FILE_IDX_fetch_add (ctr : Nat) : Nat × Nat := (ctr, (ctr + 1) % 2 ^ 64)

/-- Temp file naming from create_temp_file at lines 50-59: the returned
path embeds the fetched counter value, and the counter advances by one.
The directory creation side effect carries no data and is not modelled. -/
def create_temp_file (temp_dir ext : String) (ctr : Nat) : String × Nat :=
  (temp_dir ++ "/" ++ natToString (FILE_IDX_fetch_add ctr).1 ++ "." ++ ext,
   (FILE_IDX_fetch_add ctr).2)

/-- Identifiers fetched by n successive create_temp_file calls starting
from counter value ctr. -/
def temp_ids : Nat → Nat → List Nat
  | _, 0 => []
  | ctr, n + 1 => (FILE_IDX_fetch_add ctr).1 :: temp_ids (FILE_IDX_fetch_add ctr).2 n

/-- Removal of one trailing carriage return, as the line iterator of the
Rust standard library applies to every newline terminated piece. -/
def stripCR (l : List Char) : List Char :=
  match l.getLast? with
  | some '\r' => l.dropLast
  | _ => l

/-- Line splitting loop modelling str::lines: pieces are cut at every
newline, a carriage return directly before a newline is dropped, a final
piece without a newline is kept as is, and a trailing newline produces no
empty final piece. The second argument accumulates the current line in
reverse. -/
def rlinesGo : List Char → List Char → List (List Char)
  | [], acc => if acc = [] then [] else [acc.reverse]
  | '\n' :: rest, acc => stripCR acc.reverse :: rlinesGo rest []
  | c :: rest, acc => rlinesGo rest (c :: acc)

/-- Model of str::lines applied to the full character list of a string. -/
def rlines (s : List Char) : List (List Char) := rlinesGo s []

/-- Splitting at every occurrence of a separator character, modelling
str::split with a char pattern: adjacent separators and separators at the
ends produce empty pieces. -/
def splitOnChar (sep : Char) : List Char → List (List Char)
  | [] => [[]]
  | c :: cs =>
    let r := splitOnChar sep cs
    if c = sep then [] :: r
    else
      match r with
      | [] => [[c]]
      | g :: gs => (c :: g) :: gs

/-- Whitespace test covering the ASCII whitespace the coverage report can
contain, modelling char::is_whitespace on that alphabet. -/
def isWS (c : Char) : Bool := c == ' ' || c == '\t' || c == '\n' || c == '\r'

/-- Model of str::trim on a character list. -/
def trimChars (l : List Char) : List Char :=
  ((l.dropWhile isWS).reverse.dropWhile isWS).reverse

/-- Model of str::trim_end_matches applied with a percent sign pattern:
every trailing percent sign is removed. -/
def trimEndPercents (l : List Char) : List Char :=
  (l.reverse.dropWhile (fun c => c == '%')).reverse

/-- Column extraction from the coverage handler at lines 262-267: split the
line at spaces, trim each piece, keep the non empty pieces, and strip
trailing percent signs from each kept piece. -/
def covLineParts (l : List Char) : List (List Char) :=
  (((splitOnChar ' ' l).map trimChars).filter (fun p => !p.isEmpty)).map trimEndPercents

/-- Digit parsing core of str::parse::<u8>: at least one character, all
characters decimal digits, and the value at most 255. -/
def parse_u8_digits (t : List Char) : Option Nat :=
  match t with
  | [] => none
  | _ :: _ =>
    if t.all (fun c => c.isDigit) then
      if (t.foldl (fun a c => a * 10 + (c.toNat - 48)) 0) ≤ 255 then
        some (t.foldl (fun a c => a * 10 + (c.toNat - 48)) 0)
      else none
    else none

/-- Model of str::parse::<u8>, which also accepts one leading plus sign. -/
def parse_u8 (s : List Char) : Option Nat :=
  match s with
  | c :: r => if c = '+' then parse_u8_digits r else parse_u8_digits (c :: r)
  | [] => parse_u8_digits []

/-- Separator line prefix of nine dashes tested at line 270. -/
def nineDashes : List Char := ['-', '-', '-', '-', '-', '-', '-', '-', '-']

/-- Parsing of the line following the separator, from lines 261-269: take
the fourth space separated column and parse it as a u8 percentage; a
missing column or a failing parse aborts the surrounding thunk with none.
An empty rest of the report leaves the zero default in place. -/
def cov_take : List (List Char) → Option Nat
  | [] => some 0
  | l :: _ => ((covLineParts l).get? 3).bind parse_u8

/-- Scanning loop of the coverage handler at lines 258-273: the percentage
defaults to zero, the line after the first separator line is parsed, and a
report without a separator line keeps the zero default. -/
def cov_scan : List (List Char) → Option Nat
  | [] => some 0
  | l :: ls => if l.take 9 = nineDashes then cov_take ls else cov_scan ls

/-- Results of the two child process runs performed by the coverage
handler: the coverage run of the submitted file and the report
generation. -/
structure CovEnv where
  run1 : ExecResult
  run2 : ExecResult

/-- Coverage handler result from lines 228-281: every stage failure
escapes the thunk with none, which unwrap_or renders as the sentinel;
otherwise the scanned percentage is rendered in decimal. The temp file
bookkeeping around the thunk carries no data and is not modelled. -/
def coverage (env : CovEnv) : String :=
  match env.run1 with
  | .error _ => "-1"
  | .ok o1 =>
    match o1.status with
    | none => "-1"
    | some c1 =>
      if c1 ≠ 0 then "-1"
      else
        match env.run2 with
        | .error _ => "-1"
        | .ok o2 =>
          match o2.status with
          | none => "-1"
          | some c2 =>
            if c2 ≠ 0 then "-1"
            else
              match from_utf8_strict o2.stdout with
              | none => "-1"
              | some s =>
                match cov_scan (rlines s.data) with
                | none => "-1"
                | some p => natToString p

/-- JSON values as far as the field extractors observe them: an integer
representable as an i64 (for which as_i64 returns it), or anything else
(for which as_i64 returns none). -/
inductive JVal where
  | int (n : Int)
  | other

/-- Field extractor from get_int_json at lines 217-226: a request body
that is not a JSON object (none) yields zero, as does a missing field or a
field that is not an i64 integer. -/
def get_int_json (doc : Option (List (String × JVal))) (key : String) : Int :=
  match doc with
  | none => 0
  | some fields =>
    match fields.lookup key with
    | some (JVal.int n) => n
    | _ => 0

/-- Wrapping cast from i64 to u64, modelling the as u64 conversion the
handlers apply at lines 230, 285 and 293. -/
def i64_as_u64 (n : Int) : Nat := (n % (2 : Int) ^ 64).toNat

/-- Timeout value the handlers py_exec, any_exec and coverage pass to
Duration::from_secs: the extracted i64 field cast to u64. -/
def request_timeout_secs (doc : Option (List (String × JVal))) : Nat :=
  i64_as_u64 (get_int_json doc "timeout")

/- Helper lemmas. -/

lemma string_data_append (a b : String) : (a ++ b).data = a.data ++ b.data := by
  cases a; cases b; rfl

lemma one_ne_zero_append (a b : String) : "1\n" ++ a ≠ "0\n" ++ b := by
  intro hcon
  have hd := congrArg String.data hcon
  rw [string_data_append, string_data_append] at hd
  have e1 : ("1\n" : String).data = ['1', '\n'] := rfl
  have e0 : ("0\n" : String).data = ['0', '\n'] := rfl
  rw [e1, e0] at hd
  simp +decide at hd

lemma utf8Fuel_strict_lossy :
    ∀ (f : Nat) (l : Bytes) (cs : List Char),
      utf8StrictFuel f l = some cs → utf8LossyFuel f l = cs := by
  intro f
  induction f with
  | zero =>
    intro l cs hst
    cases l with
    | nil =>
      simp only [utf8StrictFuel, Option.some.injEq] at hst
      simp [utf8LossyFuel, hst]
    | cons b bs => simp [utf8StrictFuel] at hst
  | succ f ih =>
    intro l cs hst
    cases l with
    | nil =>
      simp only [utf8StrictFuel, Option.some.injEq] at hst
      simp [utf8LossyFuel, hst]
    | cons b bs =>
      rcases hd : decodeOne b bs with ⟨o, k⟩
      cases o with
      | some c =>
        simp only [utf8StrictFuel] at hst
        rw [hd] at hst
        simp only [Option.map_eq_some'] at hst
        obtain ⟨cs', h1, h2⟩ := hst
        simp only [utf8LossyFuel]
        rw [hd]
        simp only
        rw [ih _ _ h1, h2]
      | none =>
        simp only [utf8StrictFuel] at hst
        rw [hd] at hst
        simp at hst

lemma utf8Fuel_strict_none :
    ∀ (f : Nat) (l : Bytes), l.length ≤ f →
      utf8StrictFuel f l = none → '�' ∈ utf8LossyFuel f l := by
  intro f
  induction f with
  | zero =>
    intro l hl hst
    cases l with
    | nil => simp [utf8StrictFuel] at hst
    | cons b bs => simp at hl
  | succ f ih =>
    intro l hl hst
    cases l with
    | nil => simp [utf8StrictFuel] at hst
    | cons b bs =>
      rcases hd : decodeOne b bs with ⟨o, k⟩
      cases o with
      | some c =>
        simp only [utf8StrictFuel] at hst
        rw [hd] at hst
        simp only [Option.map_eq_none'] at hst
        have hlen : (bs.drop k).length ≤ f := by
          have h1 : (bs.drop k).length = bs.length - k := List.length_drop k bs
          have h2 : bs.length + 1 ≤ f + 1 := by simpa using hl
          omega
        have hmem := ih (bs.drop k) hlen hst
        simp only [utf8LossyFuel]
        rw [hd]
        exact List.mem_cons_of_mem _ hmem
      | none =>
        simp only [utf8LossyFuel]
        rw [hd]
        exact List.mem_cons_self _ _

lemma from_utf8_strict_lossy (bs : Bytes) (s : String) :
    from_utf8_strict bs = some s → from_utf8_lossy bs = s := by
  intro h
  simp only [from_utf8_strict, Option.map_eq_some'] at h
  obtain ⟨cs, h1, h2⟩ := h
  simp only [from_utf8_lossy]
  rw [utf8Fuel_strict_lossy _ _ _ h1, h2]

lemma from_utf8_strict_none (bs : Bytes) :
    from_utf8_strict bs = none → '�' ∈ (from_utf8_lossy bs).data := by
  intro h
  simp only [from_utf8_strict, Option.map_eq_none'] at h
  simpa [from_utf8_lossy] using utf8Fuel_strict_none bs.length bs le_rfl h

/- Claim theorems. -/

/-- C1: the result encoder out_to_res deterministically renders an Ok
output with exit code zero as status 0 with the stdout text, an Ok output
with a non zero or unreadable exit code as status 1 with the stderr text,
a Timeout as status 1 with the literal Timeout payload, and an IoError or
Utf8Error as status 1 with the error description; every encoded result
begins with the 0 line or the 1 line, and begins with the 0 line exactly
when the outcome is a success with exit code 0. -/
theorem out_to_res_spec :
    (∀ (st : Option Int) (so se : Bytes),
        out_to_res (.ok ⟨st, so, se⟩) =
          if st.getD (-1) = 0 then "0\n" ++ from_utf8_lossy so
          else "1\n" ++ from_utf8_lossy se)
  ∧ out_to_res (.error .Timeout) = "1\n" ++ "Timeout"
  ∧ (∀ e, out_to_res (.error (.IoError e)) = "1\n" ++ e)
  ∧ (∀ e, out_to_res (.error (.Utf8Error e)) = "1\n" ++ e)
  ∧ (∀ r : ExecResult,
        (∃ s, out_to_res r = "0\n" ++ s) ∨ (∃ s, out_to_res r = "1\n" ++ s))
  ∧ (∀ r : ExecResult,
        (∃ s, out_to_res r = "0\n" ++ s) ↔ ∃ o, r = .ok o ∧ o.status.getD (-1) = 0) := by
  refine ⟨fun st so se => rfl, rfl, fun e => rfl, fun e => rfl, ?_, ?_⟩
  · intro r
    rcases r with err | o
    · rcases err with e | e | _
      · exact Or.inr ⟨e, rfl⟩
      · exact Or.inr ⟨e, rfl⟩
      · exact Or.inr ⟨"Timeout", rfl⟩
    · by_cases hc : o.status.getD (-1) = 0
      · exact Or.inl ⟨from_utf8_lossy o.stdout, by simp [out_to_res, hc]⟩
      · exact Or.inr ⟨from_utf8_lossy o.stderr, by simp [out_to_res, hc]⟩
  · intro r
    constructor
    · rintro ⟨s, hs⟩
      rcases r with err | o
      · rcases err with e | e | _
        · exact absurd hs (one_ne_zero_append _ _)
        · exact absurd hs (one_ne_zero_append _ _)
        · rw [show out_to_res (.error .Timeout) = "1\n" ++ "Timeout" from rfl] at hs
          exact absurd hs (one_ne_zero_append _ _)
      · by_cases hc : o.status.getD (-1) = 0
        · exact ⟨o, rfl, hc⟩
        · rw [show out_to_res (.ok o) = "1\n" ++ from_utf8_lossy o.stderr by
            simp [out_to_res, hc]] at hs
          exact absurd hs (one_ne_zero_append _ _)
    · rintro ⟨o, rfl, hc⟩
      exact ⟨from_utf8_lossy o.stdout, by simp [out_to_res, hc]⟩

/-- C7: for Ok outcomes the rendering of stdout and stderr bytes always
goes through the lossy decode, so out_to_res is total over arbitrary byte
contents and never produces a decoding failure result from them; the lossy
decode agrees with the strict decode on valid byte strings and replaces
the offending part of an invalid byte string with the replacement
character instead of failing. -/
theorem lossy_render_total_spec :
    (∀ o : Output,
        out_to_res (.ok o) = "0\n" ++ from_utf8_lossy o.stdout
        ∨ out_to_res (.ok o) = "1\n" ++ from_utf8_lossy o.stderr)
  ∧ (∀ (bs : Bytes) (s : String), from_utf8_strict bs = some s → from_utf8_lossy bs = s)
  ∧ (∀ bs : Bytes, from_utf8_strict bs = none → '�' ∈ (from_utf8_lossy bs).data) := by
  refine ⟨?_, from_utf8_strict_lossy, from_utf8_strict_none⟩
  intro o
  by_cases hc : o.status.getD (-1) = 0
  · exact Or.inl (by simp [out_to_res, hc])
  · exact Or.inr (by simp [out_to_res, hc])

/-- C7 witness: a single 0xFF byte is rejected by the strict decode and
rendered as the replacement character by the lossy decode, while the valid
byte string for the letter h decodes identically under both. -/
theorem lossy_render_total_spec_witness :
    from_utf8_strict [0xFF] = none
  ∧ '�' ∈ (from_utf8_lossy [0xFF]).data
  ∧ from_utf8_strict [104] = some "h"
  ∧ from_utf8_lossy [104] = "h" :=
  ⟨by decide, lossy_render_total_spec.2.2 [0xFF] (by decide), by decide,
   lossy_render_total_spec.2.1 [104] "h" (by decide)⟩

lemma run_sys (h : Host) (stdin : Bytes) (env : RunEnv) :
    (run_program_with_timeout h stdin env).sys
      = (pre_exec (MEMORY_LIMIT h) env.preExec).2 := by
  obtain ⟨⟨g, u, rl⟩, sp, sw, race, op, ep⟩ := env
  cases g <;> cases u <;> cases rl <;> cases sp <;> cases stdin <;> cases sw <;>
    rcases op with _ | (_ | _) <;> rcases ep with _ | (_ | _) <;> cases race <;> rfl

/-- C2: when the caller specified duration elapses before the child exits
(and the call reached the race: the spawn succeeded, the stdin write was
skipped or succeeded, and both pipe handles are present as the source
guarantees by construction), the child is killed, the function returns the
Timeout error and never a partial output, and the encoded result is status
1 with the literal Timeout payload. -/
theorem run_timeout_spec (h : Host) (stdin : Bytes) (env : RunEnv)
    (hg : env.preExec.setgidR = .ok ()) (hu : env.preExec.setuidR = .ok ())
    (hr : env.preExec.setrlimitR = .ok ()) (hs : env.spawnOk = .ok ())
    (hw : stdin = [] ∨ env.stdinWriteR = .ok ())
    (ho : env.stdoutPipe ≠ none) (he : env.stderrPipe ≠ none)
    (hx : env.race = .elapsed) :
    (run_program_with_timeout h stdin env).result = .error .Timeout
  ∧ (run_program_with_timeout h stdin env).killed = true
  ∧ out_to_res (run_program_with_timeout h stdin env).result = "1\nTimeout"
  ∧ ∀ o : Output, (run_program_with_timeout h stdin env).result ≠ .ok o := by
  obtain ⟨⟨g, u, rl⟩, sp, sw, race, op, ep⟩ := env
  dsimp only at hg hu hr hs hw ho he hx
  subst hg; subst hu; subst hr; subst hs; subst hx
  rcases op with _ | sr
  · exact absurd rfl ho
  rcases ep with _ | er
  · exact absurd rfl he
  rcases hw with rfl | rfl
  · exact ⟨rfl, rfl, rfl, fun o hcon => Except.noConfusion hcon⟩
  · cases stdin <;> exact ⟨rfl, rfl, rfl, fun o hcon => Except.noConfusion hcon⟩

/-- C2 witness: a concrete environment in which every step up to the race
succeeds and the timeout elapses first. -/
theorem run_timeout_spec_witness :
    (run_program_with_timeout ⟨1024, 2⟩ []
        ⟨⟨.ok (), .ok (), .ok ()⟩, .ok (), .ok (), .elapsed,
         some (.ok []), some (.ok [])⟩).result = .error .Timeout
  ∧ out_to_res (run_program_with_timeout ⟨1024, 2⟩ []
        ⟨⟨.ok (), .ok (), .ok ()⟩, .ok (), .ok (), .elapsed,
         some (.ok []), some (.ok [])⟩).result = "1\nTimeout" := by
  have h := run_timeout_spec ⟨1024, 2⟩ []
      ⟨⟨.ok (), .ok (), .ok ()⟩, .ok (), .ok (), .elapsed, some (.ok []), some (.ok [])⟩
      rfl rfl rfl rfl (Or.inl rfl) (fun hcon => Option.noConfusion hcon)
      (fun hcon => Option.noConfusion hcon) rfl
  exact ⟨h.1, h.2.2.1⟩

/-- C6: when the wait resolves before the timeout but itself returns an
operating system error (and the call reached the race as in C2), the child
is killed with the result of the kill discarded, and the function returns
an IoError outcome carrying that wait error. -/
theorem run_wait_error_spec (h : Host) (stdin : Bytes) (env : RunEnv) (e : String)
    (hg : env.preExec.setgidR = .ok ()) (hu : env.preExec.setuidR = .ok ())
    (hr : env.preExec.setrlimitR = .ok ()) (hs : env.spawnOk = .ok ())
    (hw : stdin = [] ∨ env.stdinWriteR = .ok ())
    (ho : env.stdoutPipe ≠ none) (he : env.stderrPipe ≠ none)
    (hx : env.race = .waitErr e) :
    (run_program_with_timeout h stdin env).result = .error (.IoError e)
  ∧ (run_program_with_timeout h stdin env).killed = true
  ∧ out_to_res (run_program_with_timeout h stdin env).result = "1\n" ++ e := by
  obtain ⟨⟨g, u, rl⟩, sp, sw, race, op, ep⟩ := env
  dsimp only at hg hu hr hs hw ho he hx
  subst hg; subst hu; subst hr; subst hs; subst hx
  rcases op with _ | sr
  · exact absurd rfl ho
  rcases ep with _ | er
  · exact absurd rfl he
  rcases hw with rfl | rfl
  · exact ⟨rfl, rfl, rfl⟩
  · cases stdin <;> exact ⟨rfl, rfl, rfl⟩

/-- C6 witness: a concrete environment whose wait resolves with an
operating system error. -/
theorem run_wait_error_spec_witness :
    (run_program_with_timeout ⟨1024, 2⟩ []
        ⟨⟨.ok (), .ok (), .ok ()⟩, .ok (), .ok (), .waitErr "No child processes (os error 10)",
         some (.ok []), some (.ok [])⟩).result
      = .error (.IoError "No child processes (os error 10)")
  ∧ (run_program_with_timeout ⟨1024, 2⟩ []
        ⟨⟨.ok (), .ok (), .ok ()⟩, .ok (), .ok (), .waitErr "No child processes (os error 10)",
         some (.ok []), some (.ok [])⟩).killed = true := by
  have h := run_wait_error_spec ⟨1024, 2⟩ []
      ⟨⟨.ok (), .ok (), .ok ()⟩, .ok (), .ok (), .waitErr "No child processes (os error 10)",
       some (.ok []), some (.ok [])⟩ "No child processes (os error 10)"
      rfl rfl rfl rfl (Or.inl rfl) (fun hcon => Option.noConfusion hcon)
      (fun hcon => Option.noConfusion hcon) rfl
  exact ⟨h.1, h.2.1⟩

/-- Environment in which the child spawns but the stdin write fails with a
broken pipe error. -/
def envStdinFail : RunEnv :=
  ⟨⟨.ok (), .ok (), .ok ()⟩, .ok (), .error "Broken pipe (os error 32)", .elapsed,
   some (.ok []), some (.ok [])⟩

/-- C3 evaluation: with a non empty stdin whose write fails, the source
returns the IoError early through the question mark operator at line 116,
so the call ends with a spawned child that was neither killed nor waited
to completion, contradicting the no leak invariant the claim states. -/
theorem stdin_write_error_leak :
    (run_program_with_timeout ⟨1024, 2⟩ [112, 105] envStdinFail).spawned = true
  ∧ (run_program_with_timeout ⟨1024, 2⟩ [112, 105] envStdinFail).killed = false
  ∧ (run_program_with_timeout ⟨1024, 2⟩ [112, 105] envStdinFail).reaped = false
  ∧ (run_program_with_timeout ⟨1024, 2⟩ [112, 105] envStdinFail).result
      = .error (.IoError "Broken pipe (os error 32)") :=
  ⟨rfl, rfl, rfl, rfl⟩

/-- C4: the child setup hook attempts the group identity change, the user
identity change and the address space limit installation in exactly that
order, installing the limit as both the soft and the hard value; it
returns Ok exactly when all three steps succeed, it returns the error of
the first failing step, and the child executes the caller supplied program
exactly when the hook returns Ok. -/
theorem pre_exec_order_spec (lim : Nat) (env : PreExecEnv) :
    ((pre_exec lim env).2 = [SysCall.setgid 1000]
      ∨ (pre_exec lim env).2 = [SysCall.setgid 1000, SysCall.setuid 1000]
      ∨ (pre_exec lim env).2
          = [SysCall.setgid 1000, SysCall.setuid 1000, SysCall.setrlimit lim lim])
  ∧ ((pre_exec lim env).1 = .ok ()
      ↔ env.setgidR = .ok () ∧ env.setuidR = .ok () ∧ env.setrlimitR = .ok ())
  ∧ (∀ e, (pre_exec lim env).1 = .error e
      ↔ (env.setgidR = .error e
          ∨ (env.setgidR = .ok () ∧ env.setuidR = .error e)
          ∨ (env.setgidR = .ok () ∧ env.setuidR = .ok () ∧ env.setrlimitR = .error e)))
  ∧ (child_executes lim env = true ↔ (pre_exec lim env).1 = .ok ()) := by
  obtain ⟨g, u, rl⟩ := env
  cases g <;> cases u <;> cases rl <;> simp [pre_exec, child_executes]

/-- C5: the memory ceiling equals total system memory divided by the cpu
count; when the three setup steps succeed (as they do for every child that
actually spawns), that exact value is installed as the address space limit
of the child; and every address space limit ever installed by any call
equals that one value, soft and hard alike, so all children of one service
lifetime receive the identical ceiling. -/
theorem MEMORY_LIMIT_spec :
    (∀ h : Host, MEMORY_LIMIT h = h.total_mem / h.cpus)
  ∧ (∀ (h : Host) (stdin : Bytes) (env : RunEnv),
      env.preExec.setgidR = .ok () → env.preExec.setuidR = .ok () →
      env.preExec.setrlimitR = .ok () →
      SysCall.setrlimit (MEMORY_LIMIT h) (MEMORY_LIMIT h)
        ∈ (run_program_with_timeout h stdin env).sys)
  ∧ (∀ (h : Host) (stdin : Bytes) (env : RunEnv) (soft hard : Nat),
      SysCall.setrlimit soft hard ∈ (run_program_with_timeout h stdin env).sys →
      soft = h.total_mem / h.cpus ∧ hard = h.total_mem / h.cpus) := by
  refine ⟨fun h => rfl, ?_, ?_⟩
  · intro h stdin env hg hu hr
    rw [run_sys]
    obtain ⟨⟨g, u, rl⟩, sp, sw, race, op, ep⟩ := env
    dsimp only at hg hu hr
    subst hg; subst hu; subst hr
    simp [pre_exec]
  · intro h stdin env soft hard hm
    rw [run_sys] at hm
    obtain ⟨⟨g, u, rl⟩, sp, sw, race, op, ep⟩ := env
    cases g <;> cases u <;> cases rl <;> simp [pre_exec] at hm <;>
      exact ⟨hm.1, hm.2⟩

/-- C5 witness: on a host with 8 memory units and 2 execution units the
ceiling is 4, a fully successful call installs the pair (4, 4), and the
general theorem recovers the division from any installed pair. -/
theorem MEMORY_LIMIT_spec_witness :
    MEMORY_LIMIT ⟨8, 2⟩ = 4
  ∧ SysCall.setrlimit (MEMORY_LIMIT ⟨8, 2⟩) (MEMORY_LIMIT ⟨8, 2⟩)
      ∈ (run_program_with_timeout ⟨8, 2⟩ []
          ⟨⟨.ok (), .ok (), .ok ()⟩, .ok (), .ok (), .elapsed,
           some (.ok []), some (.ok [])⟩).sys
  ∧ ((4 : Nat) = 8 / 2 ∧ (4 : Nat) = 8 / 2) :=
  ⟨rfl,
   MEMORY_LIMIT_spec.2.1 ⟨8, 2⟩ []
     ⟨⟨.ok (), .ok (), .ok ()⟩, .ok (), .ok (), .elapsed, some (.ok []), some (.ok [])⟩
     rfl rfl rfl,
   MEMORY_LIMIT_spec.2.2 ⟨8, 2⟩ []
     ⟨⟨.ok (), .ok (), .ok ()⟩, .ok (), .ok (), .elapsed, some (.ok []), some (.ok [])⟩
     4 4 (by decide)⟩

lemma temp_ids_no_wrap : ∀ (n ctr : Nat), ctr + n ≤ 2 ^ 64 →
    temp_ids ctr n = List.range' ctr n := by
  intro n
  induction n with
  | zero => intro ctr h; rfl
  | succ n ih =>
    intro ctr h
    rw [List.range'_succ]
    simp only [temp_ids, FILE_IDX_fetch_add, List.cons.injEq]
    refine ⟨trivial, ?_⟩
    rcases Nat.lt_or_ge (ctr + 1) (2 ^ 64) with hlt | hge
    · rw [Nat.mod_eq_of_lt hlt]
      exact ih (ctr + 1) (by omega)
    · have hn : n = 0 := by omega
      subst hn
      rfl

lemma temp_ids_mod : ∀ (n s : Nat), s < 2 ^ 64 →
    temp_ids s n = (List.range n).map (fun k => (s + k) % 2 ^ 64) := by
  intro n
  induction n with
  | zero => intro s hs; simp [temp_ids]
  | succ n ih =>
    intro s hs
    rw [List.range_succ_eq_map]
    simp only [temp_ids, FILE_IDX_fetch_add, List.map_cons, List.map_map, List.cons.injEq]
    refine ⟨by omega, ?_⟩
    rw [ih ((s + 1) % 2 ^ 64) (Nat.mod_lt _ (by norm_num))]
    apply List.map_congr_left
    intro k hk
    simp only [Function.comp_apply]
    rw [Nat.mod_add_mod]
    congr 1
    omega

/-- C8 counterexample: the counter of the source is an AtomicUsize, whose
fetch and add wraps around at 2 ^ 64, so the identifier fetched at counter
state 2 ^ 64 - 1 is followed by the identifier 0 again: the two successive
identifiers decrease, and a lifetime of 2 ^ 64 + 1 calls starting from the
initial counter 0 fetches the identifier 0 twice. -/
theorem temp_ids_wrap_counterexample :
    temp_ids (2 ^ 64 - 1) 2 = [2 ^ 64 - 1, 0]
  ∧ ¬ List.Pairwise (· < ·) (temp_ids (2 ^ 64 - 1) 2)
  ∧ ¬ (temp_ids 0 (2 ^ 64 + 1)).Nodup := by
  refine ⟨by decide, ?_, ?_⟩
  · intro hp
    rw [(by decide : temp_ids (2 ^ 64 - 1) 2 = [2 ^ 64 - 1, 0])] at hp
    have hlt := (List.pairwise_cons.mp hp).1 0 (List.mem_singleton_self 0)
    exact Nat.not_lt_zero _ hlt
  · intro hnd
    rw [temp_ids_mod (2 ^ 64 + 1) 0 (by norm_num)] at hnd
    have h0 : (0 : Nat) ∈ List.range (2 ^ 64 + 1) := List.mem_range.mpr (by norm_num)
    have h1 : (2 ^ 64 : Nat) ∈ List.range (2 ^ 64 + 1) := List.mem_range.mpr (by norm_num)
    have heq : (fun k => (0 + k) % 2 ^ 64) (0 : Nat)
        = (fun k => (0 + k) % 2 ^ 64) (2 ^ 64 : Nat) := by norm_num
    have hcon := List.inj_on_of_nodup_map hnd h0 h1 heq
    norm_num at hcon

/-- C8 as amended: each create_temp_file call embeds the fetched counter
value in the returned path and stores the wrapped increment; during the
first at most 2 ^ 64 calls of a service lifetime (the counter starts at 0
and its wrap occurs only at 2 ^ 64) the fetched identifiers are strictly
increasing and without repetition, so no two such calls receive the same
identifier; the source counter is an atomic fetch and add, so any
interleaving of concurrent calls is one such serialization. -/
theorem create_temp_file_ids_spec :
    (∀ (d e : String) (c : Nat),
        create_temp_file d e c = (d ++ "/" ++ natToString c ++ "." ++ e, (c + 1) % 2 ^ 64))
  ∧ (∀ ctr n, ctr + n ≤ 2 ^ 64 → List.Pairwise (· < ·) (temp_ids ctr n))
  ∧ (∀ ctr n, ctr + n ≤ 2 ^ 64 → (temp_ids ctr n).Nodup) := by
  refine ⟨fun d e c => rfl, fun ctr n h => ?_, fun ctr n h => ?_⟩
  · rw [temp_ids_no_wrap n ctr h]
    exact List.pairwise_lt_range' ctr n
  · rw [temp_ids_no_wrap n ctr h]
    exact List.nodup_range' ctr n

/-- C8 witness: the first three identifiers of a fresh counter are
strictly increasing and distinct. -/
theorem create_temp_file_ids_spec_witness :
    List.Pairwise (· < ·) (temp_ids 0 3) ∧ (temp_ids 0 3).Nodup :=
  ⟨create_temp_file_ids_spec.2.1 0 3 (by decide),
   create_temp_file_ids_spec.2.2 0 3 (by decide)⟩

lemma parse_u8_digits_le (t : List Char) (v : Nat) (h : parse_u8_digits t = some v) :
    v ≤ 255 := by
  cases t with
  | nil => simp [parse_u8_digits] at h
  | cons c cs =>
    simp only [parse_u8_digits] at h
    split at h
    · split at h
      · injection h with h'
        subst h'
        assumption
      · exact absurd h (by simp)
    · exact absurd h (by simp)

lemma parse_u8_le (s : List Char) (v : Nat) (h : parse_u8 s = some v) : v ≤ 255 := by
  cases s with
  | nil =>
    simp only [parse_u8] at h
    exact parse_u8_digits_le _ _ h
  | cons c r =>
    simp only [parse_u8] at h
    split at h
    · exact parse_u8_digits_le _ _ h
    · exact parse_u8_digits_le _ _ h

lemma cov_take_le (ls : List (List Char)) (p : Nat) (h : cov_take ls = some p) :
    p ≤ 255 := by
  cases ls with
  | nil =>
    simp only [cov_take, Option.some.injEq] at h
    omega
  | cons l ls' =>
    simp only [cov_take] at h
    rcases hg : (covLineParts l).get? 3 with _ | part
    · rw [hg] at h
      exact absurd h (by simp)
    · rw [hg] at h
      exact parse_u8_le _ _ h

lemma cov_scan_le : ∀ (ls : List (List Char)) (p : Nat), cov_scan ls = some p → p ≤ 255 := by
  intro ls
  induction ls with
  | nil =>
    intro p h
    simp only [cov_scan, Option.some.injEq] at h
    omega
  | cons l ls' ih =>
    intro p h
    simp only [cov_scan] at h
    split at h
    · exact cov_take_le _ _ h
    · exact ih _ h

/-- C9 as amended: the coverage handler returns the sentinel, or a decimal
percentage string of a value at most 255 obtained from a successful
coverage run (exit code zero), a successful report run (exit code zero), a
strictly decodable report text and the scan of its lines; when the report
has no separator line the scan yields the zero default, so the rendered
value is then 0 rather than the sentinel. -/
theorem coverage_spec (env : CovEnv) :
    coverage env = "-1"
  ∨ ∃ p, p ≤ 255 ∧ coverage env = natToString p
      ∧ ∃ o1, env.run1 = .ok o1 ∧ o1.status = some 0
      ∧ ∃ o2, env.run2 = .ok o2 ∧ o2.status = some 0
      ∧ ∃ s, from_utf8_strict o2.stdout = some s
      ∧ cov_scan (rlines s.data) = some p := by
  obtain ⟨r1, r2⟩ := env
  rcases r1 with e1 | o1
  · left; rfl
  rcases h1 : o1.status with _ | c1
  · left; simp [coverage, h1]
  by_cases hc1 : c1 = 0
  swap
  · left; simp [coverage, h1, hc1]
  subst hc1
  rcases r2 with e2 | o2
  · left; simp [coverage, h1]
  rcases h2 : o2.status with _ | c2
  · left; simp [coverage, h1, h2]
  by_cases hc2 : c2 = 0
  swap
  · left; simp [coverage, h1, h2, hc2]
  subst hc2
  rcases hd : from_utf8_strict o2.stdout with _ | s
  · left; simp [coverage, h1, h2, hd]
  rcases hs : cov_scan (rlines s.data) with _ | p
  · left; simp [coverage, h1, h2, hd, hs]
  right
  refine ⟨p, cov_scan_le _ _ hs, ?_, o1, rfl, h1, o2, rfl, h2, s, hd, hs⟩
  simp [coverage, h1, h2, hd, hs]

/-- C9 counterexample: with both stages succeeding with exit code zero and
an empty report text, the report contains no separator line and no
percentage, yet the handler returns the zero default instead of the
sentinel, refuting the claim that every parse failure yields the
sentinel. -/
theorem coverage_missing_table_counterexample :
    coverage ⟨.ok ⟨some 0, [], []⟩, .ok ⟨some 0, [], []⟩⟩ = "0"
  ∧ rlines (("" : String).data) = []
  ∧ (("0" : String) ≠ "-1") :=
  ⟨rfl, rfl, by decide⟩

/-- C10: a negative i64 timeout field is returned as such by get_int_json,
and the cast the handlers apply wraps it to two to the sixty fourth plus
the negative value, a huge duration, instead of rejecting the request or
clamping the timeout to zero. -/
theorem negative_timeout_wraps (n : Int) (h1 : -(2 ^ 63) ≤ n) (h2 : n < 0) :
    get_int_json (some [("timeout", JVal.int n)]) "timeout" = n
  ∧ (request_timeout_secs (some [("timeout", JVal.int n)]) : Int) = 2 ^ 64 + n
  ∧ request_timeout_secs (some [("timeout", JVal.int n)]) ≠ 0 := by
  have hg : get_int_json (some [("timeout", JVal.int n)]) "timeout" = n := rfl
  have hpow64 : (2 : Int) ^ 64 = 18446744073709551616 := by norm_num
  have hpow63 : (2 : Int) ^ 63 = 9223372036854775808 := by norm_num
  rw [hpow63] at h1
  have hmod : n % (2 : Int) ^ 64 = n + 2 ^ 64 := by
    rw [hpow64]
    omega
  have hnn : 0 ≤ n % (2 : Int) ^ 64 := by
    rw [hmod, hpow64]
    omega
  have hval : (request_timeout_secs (some [("timeout", JVal.int n)]) : Int) = 2 ^ 64 + n := by
    rw [show request_timeout_secs (some [("timeout", JVal.int n)])
          = (n % (2 : Int) ^ 64).toNat from rfl]
    rw [Int.toNat_of_nonneg hnn, hmod]
    ring
  refine ⟨hg, hval, fun h0 => ?_⟩
  rw [h0, hpow64] at hval
  norm_num at hval
  omega

/-- C10 witness: a timeout field of minus one wraps to the largest u64
value, which is not zero. -/
theorem negative_timeout_wraps_witness :
    get_int_json (some [("timeout", JVal.int (-1))]) "timeout" = -1
  ∧ (request_timeout_secs (some [("timeout", JVal.int (-1))]) : Int) = 2 ^ 64 + -1
  ∧ request_timeout_secs (some [("timeout", JVal.int (-1))]) ≠ 0 :=
  negative_timeout_wraps (-1) (by norm_num) (by norm_num)

end PyExec
